import Mathlib

/-!
Verification of the `-N` option encoder (`_alias_option_N`) and the
required-parameter check of `grdmask` from `src/pygmt/src/grdmask.py`.

The Python values flowing into the encoder are numbers (ints or floats,
including NaN) or strings.  We embed them as `PyVal`.  A finite Python
float is represented by its rational value together with the text that
`str()` renders for it: the rendering algorithm for floats (shortest
round-tripping decimal) is a runtime detail we do not re-implement, so we
carry the rendered text as data; equality comparisons use the rational
value, as the Python `==` operator does.
-/

/-- A Python value that can be passed for `outside`, `edge` or `inside`:
an int, a finite float (rational value plus its `str()` rendering),
the float NaN, or a string. -/
inductive PyVal where
  | int (n : ℤ)
  | float (q : ℚ) (txt : String)
  | nan
  | str (s : String)
deriving DecidableEq, Repr

/-- Python `==` on these values: ints and floats compare by numeric value,
strings compare by content, NaN compares unequal to everything (itself
included), and a number never equals a string. -/
def pyEq : PyVal → PyVal → Bool
  | .int m, .int n => m == n
  | .int m, .float q _ => ((m : ℚ)) == q
  | .float q _, .int n => q == ((n : ℚ))
  | .float q _, .float r _ => q == r
  | .str s, .str t => s == t
  | _, _ => false

/-- Python `str()` (also f-string interpolation) on these values. -/
def pyStr : PyVal → String
  | .int n => toString n
  | .float _ t => t
  | .nan => "nan"
  | .str s => s

/-- The single quote character, used by Python `repr` of a string. -/
def pySq : String := String.mk [Char.ofNat 39]

/-- Python `repr()` as used in the error message: strings are wrapped in
single quotes (none of the values reaching the message contain quote or
escape characters), numbers render as `str()` does. -/
def pyRepr : PyVal → String
  | .str s => pySq ++ s ++ pySq
  | v => pyStr v

/-- `special_modes = {"z": "z", "id": "p"}` from the source. -/
def special_modes : List (String × String) := [("z", "z"), ("id", "p")]

/-- Python dict key membership/lookup `special_modes[v]` applied to a
`PyVal`: only a string can equal a string key. -/
def special_lookup : PyVal → Option String
  | .str s => special_modes.lookup s
  | _ => none

/-- The `GMTParameterError` exception (`pygmt.exceptions` is outside
`src/`; modelled from the two call sites in `grdmask.py`): it is raised
either with a `reason` message or with a list of `required` parameter
names. -/
inductive GMTParameterError where
  | reason (msg : String)
  | required (params : List String)
deriving DecidableEq, Repr

/-- An `Alias` object as the encoder builds it.  Modelled from the spec:
`pygmt.alias.Alias` is outside `src/`; per the spec and the doctests in
`grdmask.py`, an alias carries a single string value token plus the
logical option name used for downstream merging. -/
structure Alias where
  value : String
  name : String
deriving DecidableEq, Repr

/-- Modelled from the spec: `Alias([outside, edge, inside], name=...,
sep="/", size=3)` renders its value as the `str()` forms of the list
elements joined by the separator (doctest: `_alias_option_N()._value`
is `"0/0/1"`). -/
def aliasOfList (vals : List PyVal) (nm sep : String) : Alias :=
  ⟨String.intercalate sep (vals.map pyStr), nm⟩

/-- Python `str.upper()` on the one-character ASCII mode tags
(`"z".upper() = "Z"`, `"p".upper() = "P"`). -/
def pyUpper (s : String) : String := String.mk (s.data.map Char.toUpper)

/-- The validation error message built at lines 52-55 of the source. -/
def invalidCombinationMsg (inside edge : PyVal) : String :=
  "Invalid combination: inside=" ++ pyRepr inside ++ " and edge=" ++ pyRepr edge
    ++ ". " ++ "When both are special modes, they must be the same."

/-- `_alias_option_N(outside, edge, inside)` from `grdmask.py`:
raises `GMTParameterError` when `inside` and `edge` are both special
modes and differ; otherwise builds the `-N` alias, taking the symbolic
branch when `inside` is a special mode and the standard
`outside/edge/inside` branch otherwise. -/
def _alias_option_N (outside edge inside : PyVal) : Except GMTParameterError Alias :=
  let inside_is_special := (special_lookup inside).isSome
  let edge_is_special := (special_lookup edge).isSome
  if inside_is_special && edge_is_special && !(pyEq inside edge) then
    .error (.reason (invalidCombinationMsg inside edge))
  else if inside_is_special then
    -- Mode: -Nz, -NZ, -Np, or -NP
    let mode_char := (special_lookup inside).getD ""
    let mode_char := if pyEq edge inside then pyUpper mode_char else mode_char
    let n_value := if !(pyEq outside (.int 0)) then mode_char ++ "/" ++ pyStr outside
      else mode_char
    .ok ⟨n_value, "mask_values"⟩
  else
    -- Standard mode: outside/edge/inside
    .ok (aliasOfList [outside, edge, inside] "mask_values" "/")

/-- Modelled from the spec: the session, virtual-file and argument-list
plumbing of `grdmask` delegates to the external engine, which the spec
treats as a black-box collaborator; we record the invocation it would
receive — the module name together with the marshalled option values. -/
structure EngineCall where
  module : String
  spacing : PyVal
  region : PyVal
  maskValues : Alias
deriving DecidableEq, Repr

/-- The argument-marshalling prefix of `grdmask` from `grdmask.py`:
`spacing` and `region` default to `None`; if either is `None` the
function raises `GMTParameterError(required=["region", "spacing"])`
before building any alias or touching the engine; otherwise it builds
the `-N` alias via `_alias_option_N` (propagating its error) and hands
the assembled arguments to the engine. -/
def grdmask (spacing region : Option PyVal) (outside edge inside : PyVal) :
    Except GMTParameterError EngineCall :=
  match spacing, region with
  | some sp, some rg =>
    match _alias_option_N outside edge inside with
    | .error err => .error err
    | .ok a => .ok ⟨"grdmask", sp, rg, a⟩
  | _, _ => .error (.required ["region", "spacing"])

/-- A value is numeric (an int, a finite float, or NaN) rather than a
string; used to state the claims about the all-numeric branch. -/
def isNumeric : PyVal → Bool
  | .str _ => false
  | _ => true

theorem special_lookup_isSome_iff (v : PyVal) :
    (special_lookup v).isSome = true ↔ v = .str "z" ∨ v = .str "id" := by
  cases v with
  | str s =>
    simp only [special_lookup, special_modes, List.lookup, PyVal.str.injEq]
    by_cases hz : s = "z"
    · simp [hz]
    · by_cases hi : s = "id"
      · simp [hz, hi]
      · have h1 : (s == "z") = false := beq_eq_false_iff_ne.mpr hz
        have h2 : (s == "id") = false := beq_eq_false_iff_ne.mpr hi
        simp [h1, h2, hz, hi]
  | _ => simp [special_lookup]

theorem special_lookup_num (v : PyVal) (h : isNumeric v = true) :
    special_lookup v = none := by
  cases v <;> simp_all [special_lookup, isNumeric]

theorem pyEq_num_str (v : PyVal) (s : String) (h : isNumeric v = true) :
    pyEq v (.str s) = false := by
  cases v <;> simp_all [pyEq, isNumeric]

theorem pyEq_str_str (s t : String) : pyEq (.str s) (.str t) = (s == t) := rfl

/-- C1: the encoder fails with a parameter-validation error exactly when
both `edge` and `inside` are symbolic (`"z"` or `"id"`) and differ;
every other input combination is accepted. -/
theorem C1_error_iff (o e i : PyVal) :
    (∃ err, _alias_option_N o e i = .error err) ↔
      ((i = .str "z" ∨ i = .str "id") ∧ (e = .str "z" ∨ e = .str "id") ∧ i ≠ e) := by
  unfold _alias_option_N
  by_cases hc :
      ((special_lookup i).isSome && (special_lookup e).isSome && !(pyEq i e)) = true
  · simp only [hc, if_true]
    rw [Bool.and_eq_true, Bool.and_eq_true, Bool.not_eq_true'] at hc
    obtain ⟨⟨hi, he⟩, hne⟩ := hc
    rw [special_lookup_isSome_iff] at hi he
    refine iff_of_true ⟨_, rfl⟩ ⟨hi, he, ?_⟩
    rcases hi with rfl | rfl <;> rcases he with rfl | rfl <;>
      simp_all [pyEq_str_str]
  · rw [if_neg hc]
    constructor
    · rintro ⟨err, herr⟩
      split at herr <;> exact absurd herr (by simp)
    · rintro ⟨hi, he, hne⟩
      exfalso
      apply hc
      rw [Bool.and_eq_true, Bool.and_eq_true, Bool.not_eq_true']
      refine ⟨⟨(special_lookup_isSome_iff i).mpr hi, (special_lookup_isSome_iff e).mpr he⟩, ?_⟩
      rcases hi with rfl | rfl <;> rcases he with rfl | rfl <;> simp_all [pyEq_str_str]

/-- C2: for all-numeric `(a, b, c)` the encoder takes the standard branch
and the token is exactly the three slash-separated fields
`outside/edge/inside`, with no abbreviation at the defaults. -/
theorem C2_standard_all_numeric (a b c : PyVal) (ha : isNumeric a = true)
    (hb : isNumeric b = true) (hc : isNumeric c = true) :
    _alias_option_N a b c =
      .ok ⟨pyStr a ++ "/" ++ pyStr b ++ "/" ++ pyStr c, "mask_values"⟩ := by
  unfold _alias_option_N
  rw [special_lookup_num b hb, special_lookup_num c hc]
  simp [aliasOfList, String.intercalate, String.intercalate.go]

/-- C2 witness: the all-default call `(0, 0, 1)` yields `"0/0/1"`. -/
theorem C2_witness :
    _alias_option_N (.int 0) (.int 0) (.int 1) = .ok ⟨"0/0/1", "mask_values"⟩ := by
  have h := C2_standard_all_numeric (.int 0) (.int 0) (.int 1) rfl rfl rfl
  rw [h]
  rfl

theorem special_lookup_str_none (s : String) (hz : s ≠ "z") (hi : s ≠ "id") :
    special_lookup (.str s) = none := by
  simp [special_lookup, special_modes, List.lookup,
    beq_eq_false_iff_ne.mpr hz, beq_eq_false_iff_ne.mpr hi]

theorem pyEq_nonspecial_special (e i : PyVal) (hi : i = .str "z" ∨ i = .str "id")
    (he : ¬(e = .str "z" ∨ e = .str "id")) : pyEq e i = false := by
  push_neg at he
  rcases hi with rfl | rfl <;> cases e <;>
    simp_all [pyEq, beq_eq_false_iff_ne]

theorem pyEq_symm (a b : PyVal) : pyEq a b = pyEq b a := by
  cases a <;> cases b <;> simp [pyEq, eq_comm]

theorem pyEq_str_refl (s : String) : pyEq (.str s) (.str s) = true := by
  simp [pyEq]

/-- When `inside` resolves to a special-mode tag while `edge` is not a
special mode, the symbolic branch produces the lowercase tag, with the
`outside` value appended after a slash unless it equals numeric zero. -/
theorem sym_branch_lower (o e i : PyVal) (tag : String)
    (hi : special_lookup i = some tag)
    (hes : (special_lookup e).isSome = false)
    (hei : pyEq e i = false) :
    _alias_option_N o e i =
      .ok ⟨if pyEq o (.int 0) then tag else tag ++ "/" ++ pyStr o,
        "mask_values"⟩ := by
  have hie : pyEq i e = false := (pyEq_symm i e).trans hei
  by_cases ho : pyEq o (.int 0) = true <;>
    simp [_alias_option_N, hi, hes, hei, hie, ho]

/-- When `edge` equals `inside` and `inside` resolves to a special-mode
tag, the symbolic branch produces the uppercase tag, with the same
slash-append rule for a non-zero `outside`. -/
theorem sym_branch_upper (o i : PyVal) (tag : String)
    (hi : special_lookup i = some tag) (hrefl : pyEq i i = true) :
    _alias_option_N o i i =
      .ok ⟨if pyEq o (.int 0) then pyUpper tag
             else pyUpper tag ++ "/" ++ pyStr o,
        "mask_values"⟩ := by
  by_cases ho : pyEq o (.int 0) = true <;>
    simp [_alias_option_N, hi, hrefl, ho]

/-- C3 counterexample: at `outside = 0`, `edge = "id"`, `inside = "z"` —
an input where `inside` is symbolic and `edge` does not equal `inside` —
the encoder raises the invalid-combination error, so no token built from
the lowercase tag (the claim asserts the token `"z"` here) exists. -/
theorem C3_counterexample :
    _alias_option_N (.int 0) (.str "id") (.str "z") =
      .error (.reason (invalidCombinationMsg (.str "z") (.str "id"))) := rfl

/-- C3 amended: for every call where `inside` is a symbolic mode and
`edge` is NOT itself a symbolic mode (hence `edge ≠ inside`; two
differing symbolic modes instead raise the invalid-combination error),
the token uses the lowercase tag (`"z"` for `"z"`, `"p"` for `"id"`):
the tag alone when `outside` equals the default numeric zero, and
`tag/outside` otherwise. -/
theorem C3_lowercase_tag (o e i : PyVal) (hi : i = .str "z" ∨ i = .str "id")
    (he : ¬(e = .str "z" ∨ e = .str "id")) :
    _alias_option_N o e i =
      .ok ⟨if pyEq o (.int 0)
             then (if i = .str "z" then "z" else "p")
             else (if i = .str "z" then "z" else "p") ++ "/" ++ pyStr o,
           "mask_values"⟩ := by
  have hei : pyEq e i = false := pyEq_nonspecial_special e i hi he
  have hes : (special_lookup e).isSome = false := by
    rw [Bool.eq_false_iff]
    intro h
    exact he ((special_lookup_isSome_iff e).mp h)
  rcases hi with rfl | rfl
  · simpa using sym_branch_lower o e (.str "z") "z" rfl hes hei
  · simpa using sym_branch_lower o e (.str "id") "p" rfl hes hei

/-- C3 witness: `outside = 1`, `edge = 0`, `inside = "z"` encodes to
`"z/1"`. -/
theorem C3_witness :
    _alias_option_N (.int 1) (.int 0) (.str "z") = .ok ⟨"z/1", "mask_values"⟩ := by
  have h := C3_lowercase_tag (.int 1) (.int 0) (.str "z") (Or.inl rfl) (by simp)
  rw [h]
  rfl

/-- C4: with `inside` symbolic, the tag is promoted to uppercase exactly
when `edge` equals `inside` (`"Z"` for `"z"`/`"z"`, `"P"` for
`"id"`/`"id"`), under the same rule for `outside` (omitted when zero,
appended after a slash otherwise); whenever `edge` is not itself a
symbolic mode (in particular numeric or left at its default) the tag
stays lowercase. -/
theorem C4_uppercase_iff_edge_matches (o e i : PyVal)
    (hi : i = .str "z" ∨ i = .str "id") :
    (e = i →
      _alias_option_N o e i =
        .ok ⟨if pyEq o (.int 0)
               then (if i = .str "z" then "Z" else "P")
               else (if i = .str "z" then "Z" else "P") ++ "/" ++ pyStr o,
             "mask_values"⟩) ∧
    (¬(e = .str "z" ∨ e = .str "id") →
      _alias_option_N o e i =
        .ok ⟨if pyEq o (.int 0)
               then (if i = .str "z" then "z" else "p")
               else (if i = .str "z" then "z" else "p") ++ "/" ++ pyStr o,
             "mask_values"⟩) := by
  constructor
  · rintro rfl
    have hz : pyUpper "z" = "Z" := rfl
    have hp : pyUpper "p" = "P" := rfl
    rcases hi with rfl | rfl
    · simpa [hz] using sym_branch_upper o (.str "z") "z" rfl (pyEq_str_refl "z")
    · simpa [hp] using sym_branch_upper o (.str "id") "p" rfl (pyEq_str_refl "id")
  · intro he
    have hei : pyEq e i = false := pyEq_nonspecial_special e i hi he
    have hes : (special_lookup e).isSome = false := by
      rw [Bool.eq_false_iff]
      intro h
      exact he ((special_lookup_isSome_iff e).mp h)
    rcases hi with rfl | rfl
    · simpa using sym_branch_lower o e (.str "z") "z" rfl hes hei
    · simpa using sym_branch_lower o e (.str "id") "p" rfl hes hei

/-- C4 witness: `outside = 0`, `edge = "z"`, `inside = "z"` encodes to
`"Z"`. -/
theorem C4_witness :
    _alias_option_N (.int 0) (.str "z") (.str "z") = .ok ⟨"Z", "mask_values"⟩ := by
  have h := (C4_uppercase_iff_edge_matches (.int 0) (.str "z") (.str "z")
    (Or.inl rfl)).1 rfl
  rw [h]
  rfl

/-- C5 counterexample: the non-recognized string `"w"` supplied for
`edge` together with `inside = "z"` raises no error, but it does NOT
fall through to the standard three-field path: the symbolic branch wins
and the token is `"z"`, with `"w"` absent, not the standard form
`"0/w/z"` the claim requires. -/
theorem C5_counterexample :
    _alias_option_N (.int 0) (.str "w") (.str "z") = .ok ⟨"z", "mask_values"⟩ ∧
      ("z" : String) ≠ "0/w/z" := ⟨rfl, by decide⟩

/-- C5 amended: a string other than `"z"`/`"id"` supplied for `edge` or
`inside` is never treated as symbolic and never causes an error; it is
stringified as-is into its slash-separated field of the standard form
provided the call actually takes the standard branch — i.e. always when
`inside` is such a string, and, for `edge`, whenever `inside` is not
symbolic (when `inside` is symbolic the symbolic branch wins and the
edge string is dropped from the token, though still without error). -/
theorem C5_nonrecognized_strings :
    (∀ (o e : PyVal) (s : String), s ≠ "z" → s ≠ "id" →
      _alias_option_N o e (.str s) =
        .ok ⟨pyStr o ++ "/" ++ pyStr e ++ "/" ++ s, "mask_values"⟩) ∧
    (∀ (o i : PyVal) (s : String), s ≠ "z" → s ≠ "id" →
      ¬(i = .str "z" ∨ i = .str "id") →
      _alias_option_N o (.str s) i =
        .ok ⟨pyStr o ++ "/" ++ s ++ "/" ++ pyStr i, "mask_values"⟩) ∧
    (∀ (o i : PyVal) (s : String), s ≠ "z" → s ≠ "id" →
      ∃ a, _alias_option_N o (.str s) i = .ok a) := by
  refine ⟨?_, ?_, ?_⟩
  · intro o e s hz hid
    have h1 : special_lookup (.str s) = none := special_lookup_str_none s hz hid
    unfold _alias_option_N
    rw [h1]
    simp [aliasOfList, String.intercalate, String.intercalate.go, pyStr]
  · intro o i s hz hid hi
    have h1 : special_lookup (.str s) = none := special_lookup_str_none s hz hid
    have h2 : (special_lookup i).isSome = false := by
      rw [Bool.eq_false_iff]
      intro h
      exact hi ((special_lookup_isSome_iff i).mp h)
    unfold _alias_option_N
    rw [h1]
    simp [h2, aliasOfList, String.intercalate, String.intercalate.go, pyStr]
  · intro o i s hz hid
    have h1 : special_lookup (.str s) = none := special_lookup_str_none s hz hid
    unfold _alias_option_N
    rw [h1]
    by_cases h2 : (special_lookup i).isSome = true <;> simp [h2]

/-- C5 witness: `inside = "w"` (not a recognized symbolic token) with
numeric `outside = 0`, `edge = 0` encodes as the standard `"0/0/w"`. -/
theorem C5_witness :
    _alias_option_N (.int 0) (.int 0) (.str "w") = .ok ⟨"0/0/w", "mask_values"⟩ := by
  have h := C5_nonrecognized_strings.1 (.int 0) (.int 0) "w" (by decide) (by decide)
  rw [h]
  rfl

/-- Whether a result of the encoder is an accepted token rather than a
raised error. -/
def accepts : Except GMTParameterError Alias → Bool
  | .ok _ => true
  | .error _ => false

/-- C6 counterexample: the symbolic value `"z"` supplied as `outside` is
accepted without any validation and lands verbatim inside the produced
token `"z/0/1"`, contradicting the claim that a symbolic `outside` is
invalid and never accepted into a token. -/
theorem C6_counterexample :
    _alias_option_N (.str "z") (.int 0) (.int 1) =
      .ok ⟨"z/0/1", "mask_values"⟩ := rfl

/-- C6 amended: the encoder never validates `outside`: whether a call is
accepted or errors is entirely independent of `outside`, and a symbolic
string supplied as `outside` is accepted and stringified into the token
like any other value (the claimed invariant holds only for the values
the type annotation intends, not for what the code enforces). -/
theorem C6_outside_never_validated :
    (∀ o p e i : PyVal,
      accepts (_alias_option_N o e i) = accepts (_alias_option_N p e i)) ∧
    (∀ e i : PyVal, isNumeric e = true → isNumeric i = true →
      _alias_option_N (.str "z") e i =
        .ok ⟨"z/" ++ pyStr e ++ "/" ++ pyStr i, "mask_values"⟩) := by
  constructor
  · intro o p e i
    unfold _alias_option_N
    by_cases h1 :
        ((special_lookup i).isSome && (special_lookup e).isSome && !(pyEq i e)) = true
    · simp [h1, accepts]
    · rw [if_neg h1, if_neg h1]
      by_cases h2 : (special_lookup i).isSome = true <;> simp [h2, accepts]
  · intro e i he hi
    have h1 : special_lookup i = none := special_lookup_num i hi
    unfold _alias_option_N
    rw [h1]
    simp [aliasOfList, String.intercalate, String.intercalate.go, pyStr]

/-- C6 witness: acceptance at `outside = 5` agrees with acceptance at
`outside = "z"`, and the symbolic outside is stringified into the
token. -/
theorem C6_witness :
    accepts (_alias_option_N (.int 5) (.int 0) (.int 1)) =
        accepts (_alias_option_N (.str "z") (.int 0) (.int 1)) ∧
      _alias_option_N (.str "z") (.int 2) (.int 3) =
        .ok ⟨"z/2/3", "mask_values"⟩ := by
  constructor
  · exact C6_outside_never_validated.1 (.int 5) (.str "z") (.int 0) (.int 1)
  · have h := C6_outside_never_validated.2 (.int 2) (.int 3) rfl rfl
    rw [h]
    rfl

/-- C7: encoding is deterministic and pure — the result is a function of
the three input values alone, so two invocations with identical inputs
yield identical results; the embedding as a total function with no state
is the shallow rendering of side-effect-freedom. -/
theorem C7_deterministic (o e i p f j : PyVal)
    (ho : o = p) (he : e = f) (hi : i = j) :
    _alias_option_N o e i = _alias_option_N p f j := by
  subst ho
  subst he
  subst hi
  rfl

/-- C7 witness: two invocations at `(0, 0, 1)` agree. -/
theorem C7_witness :
    _alias_option_N (.int 0) (.int 0) (.int 1) =
      _alias_option_N (.int 0) (.int 0) (.int 1) :=
  C7_deterministic (.int 0) (.int 0) (.int 1) (.int 0) (.int 0) (.int 1) rfl rfl rfl

/-- C8: every accepted invocation produces its token under the same
logical option name `"mask_values"`, from the symbolic branch and the
standard branch alike. -/
theorem C8_option_name (o e i : PyVal) (a : Alias)
    (h : _alias_option_N o e i = .ok a) : a.name = "mask_values" := by
  unfold _alias_option_N at h
  by_cases h1 :
      ((special_lookup i).isSome && (special_lookup e).isSome && !(pyEq i e)) = true
  · rw [if_pos h1] at h
    cases h
  · rw [if_neg h1] at h
    by_cases h2 : (special_lookup i).isSome = true
    · rw [if_pos h2] at h
      simp only [Except.ok.injEq] at h
      subst h
      rfl
    · rw [if_neg h2] at h
      simp only [Except.ok.injEq] at h
      subst h
      rfl

/-- C8 witness: the token produced at `(0, 0, 1)` carries the option
name `"mask_values"`. -/
theorem C8_witness : (Alias.mk "0/0/1" "mask_values").name = "mask_values" :=
  C8_option_name (.int 0) (.int 0) (.int 1) (Alias.mk "0/0/1" "mask_values") rfl

/-- C9: a symbolic `edge` with a numeric `inside` raises no error and
does not take the symbolic branch: the token is the standard three-field
form with the symbolic edge string rendered verbatim as the middle
field. -/
theorem C9_symbolic_edge_numeric_inside (o e i : PyVal)
    (he : e = .str "z" ∨ e = .str "id") (hi : isNumeric i = true) :
    _alias_option_N o e i =
      .ok ⟨pyStr o ++ "/" ++ pyStr e ++ "/" ++ pyStr i, "mask_values"⟩ := by
  have h1 : special_lookup i = none := special_lookup_num i hi
  unfold _alias_option_N
  rw [h1]
  simp [aliasOfList, String.intercalate, String.intercalate.go]

/-- C9 witness: `outside = 0`, `edge = "z"`, `inside = 5` encodes as
`"0/z/5"`. -/
theorem C9_witness :
    _alias_option_N (.int 0) (.str "z") (.int 5) = .ok ⟨"0/z/5", "mask_values"⟩ := by
  have h := C9_symbolic_edge_numeric_inside (.int 0) (.str "z") (.int 5)
    (Or.inl rfl) rfl
  rw [h]
  rfl

/-- C10: whenever `spacing` or `region` is `None`, `grdmask` raises
`GMTParameterError` naming both required parameters `region` and
`spacing`, and no engine invocation is produced. -/
theorem C10_required_region_spacing (sp rg : Option PyVal) (o e i : PyVal)
    (h : sp = none ∨ rg = none) :
    grdmask sp rg o e i = .error (.required ["region", "spacing"]) := by
  rcases h with rfl | rfl
  · cases rg <;> rfl
  · cases sp <;> rfl

/-- C10 witness: calling with both `spacing` and `region` missing raises
the required-parameter error. -/
theorem C10_witness :
    grdmask none none (.int 0) (.int 0) (.int 1) =
      .error (.required ["region", "spacing"]) :=
  C10_required_region_spacing none none (.int 0) (.int 0) (.int 1) (Or.inl rfl)
